import Mathlib

/-!
Verification of the Skolaroid CRUD demo: a shallow embedding of the five
HTTP route handlers (create-one, create-many, delete-one, delete-all,
list-all) over the single `User` entity, together with the browser UI's
fetch behaviour, and proofs of the specified properties.

The database is modelled as a list of persisted rows plus an
auto-increment counter; every ORM call the handlers issue
(`prisma.user.create`, `createMany` with `skipDuplicates: true`,
`delete`, `deleteMany`, `findMany` ordered by `createdAt` descending)
is given as an explicit function on that state.  Request bodies are
untyped JSON, so the fields the handlers inspect with JavaScript
truthiness tests (`!email`, `!id`, `name || null`) are modelled by a
small JavaScript-value type with its truthiness predicate.
-/

namespace Skolaroid

/-- A JSON/JavaScript value as far as these handlers inspect one:
the handlers destructure the parsed body and test fields with `!x`
and `x || null`, so `undefined`, `null`, booleans, numbers and strings
must be distinguished. -/
inductive JsValue where
  | undefined
  | null
  | bool (b : Bool)
  | num (n : Int)
  | str (s : String)
deriving DecidableEq, Repr

/-- JavaScript truthiness: `undefined`, `null`, `false`, `0` and `""`
are falsy, everything else modelled here is truthy. -/
def truthy : JsValue → Bool
  | .undefined => false
  | .null => false
  | .bool b => b
  | .num n => n != 0
  | .str s => s != ""

/-- The JavaScript expression `v || null`: `v` itself when truthy,
otherwise `null`. -/
def jsOrNull (v : JsValue) : JsValue :=
  if truthy v then v else .null

/-- One persisted `User` row: `id` (auto-increment primary key),
`email` (unique), `name` (nullable), `createdAt` and `updatedAt`
timestamps. -/
structure User where
  id : Nat
  email : String
  name : Option String
  createdAt : Nat
  updatedAt : Nat
deriving DecidableEq, Repr

/-- The database state: the persisted rows in insertion order plus the
next value of the `id` auto-increment sequence. -/
structure Store where
  users : List User
  nextId : Nat
deriving DecidableEq, Repr

/-- A fresh database: no rows, sequence at 1. -/
def emptyStore : Store := ⟨[], 1⟩

/-- Does some persisted row already use this email?  This is the
uniqueness constraint `@unique` on `email` as the database checks it
at write time. -/
def emailExists (s : Store) (e : String) : Bool :=
  s.users.any (fun u => u.email == e)

/-- Decode a value supplied for a required `String` column: anything
but a string is a client-side validation error. -/
def asRequiredString : JsValue → Option String
  | .str s => some s
  | _ => none

/-- Decode a value supplied for a nullable `String?` column: `null`
or a string; anything else is a validation error. -/
def asOptionalString : JsValue → Option (Option String)
  | .null => some none
  | .str s => some (some s)
  | _ => none

/-- Decode a value supplied for an `Int` column. -/
def asInt : JsValue → Option Int
  | .num n => some n
  | _ => none

/-- `prisma.user.create({data: {email, name}})`: validates the field
values, raises a unique-constraint error (P2002) if the email is
taken, otherwise inserts one row with a fresh `id` and
`createdAt = updatedAt = now` and returns the created record. -/
def prismaUserCreate (s : Store) (now : Nat) (email name : JsValue) :
    Except String (User × Store) :=
  match asRequiredString email, asOptionalString name with
  | some e, some nm =>
      if emailExists s e then
        .error "Unique constraint failed on the fields: (email)"
      else
        let u : User := ⟨s.nextId, e, nm, now, now⟩
        .ok (u, ⟨s.users ++ [u], s.nextId + 1⟩)
  | _, _ => .error "Invalid data supplied to create"

/-- The row-by-row core of `createMany` with `skipDuplicates: true`:
each decoded `(email, name)` row is skipped when its email is already
present — in the pre-existing data or inserted by an earlier row of
the same batch — and inserted otherwise; returns the number of rows
actually inserted together with the final state. -/
def insertSkip (s : Store) (now : Nat) : List (String × Option String) → Nat × Store
  | [] => (0, s)
  | (e, nm) :: rest =>
      if emailExists s e then insertSkip s now rest
      else
        let u : User := ⟨s.nextId, e, nm, now, now⟩
        let p := insertSkip ⟨s.users ++ [u], s.nextId + 1⟩ now rest
        (p.1 + 1, p.2)

/-- Decode one `{email, name}` row of a `createMany` payload. -/
def decodeRow (r : JsValue × JsValue) : Option (String × Option String) :=
  match asRequiredString r.1, asOptionalString r.2 with
  | some e, some nm => some (e, nm)
  | _, _ => none

/-- Decode every row of a `createMany` payload; `none` as soon as one
row is ill-typed. -/
def decodeRows : List (JsValue × JsValue) → Option (List (String × Option String))
  | [] => some []
  | r :: rest =>
      match decodeRow r, decodeRows rest with
      | some d, some ds => some (d :: ds)
      | _, _ => none

/-- `prisma.user.createMany({data, skipDuplicates: true})`: validates
every row first (the whole statement fails if any row is ill-typed),
then inserts with duplicate-skip semantics and reports the count of
rows actually inserted. -/
def prismaCreateMany (s : Store) (now : Nat) (data : List (JsValue × JsValue)) :
    Except String (Nat × Store) :=
  match decodeRows data with
  | some rows => .ok (insertSkip s now rows)
  | none => .error "Invalid data supplied to createMany"

/-- `prisma.user.delete({where: {id}})`: validates the id, raises a
no-match error (P2025) when no row has that id, otherwise removes the
matching row and returns its last-known field values. -/
def prismaUserDelete (s : Store) (id : JsValue) :
    Except String (User × Store) :=
  match asInt id with
  | some n =>
      match s.users.find? (fun u => (u.id : Int) == n) with
      | some u =>
          .ok (u, ⟨s.users.eraseP (fun v => (v.id : Int) == n), s.nextId⟩)
      | none => .error "No record was found for a delete."
  | none => .error "Invalid data supplied to delete"

/-- `prisma.user.deleteMany({where: {}})`: removes every row and
reports how many were removed; an empty table yields count 0, not an
error. -/
def prismaDeleteMany (s : Store) : Nat × Store :=
  (s.users.length, ⟨[], s.nextId⟩)

/-- `prisma.user.findMany({orderBy: {createdAt: 'desc'}})`: every row,
newest `createdAt` first. -/
def prismaFindManyDesc (s : Store) : List User :=
  s.users.mergeSort (fun a b => b.createdAt ≤ a.createdAt)

/-- Which data-access call a handler issued, for stating that
validation failures never reach persistence. -/
inductive DbCall where
  | create
  | createMany
  | deleteOne
  | deleteMany
  | findMany
deriving DecidableEq, Repr

/-- The JSON envelope a handler returns: the three success shapes
(`{success, message, user}`, `{success, message, count}`,
`{success, users}`) and the error shape `{error}` at status 400 or
500. -/
inductive Resp where
  | userOk (message : String) (user : User)
  | countOk (message : String) (count : Nat)
  | usersOk (users : List User)
  | clientError (error : String)
  | serverError (error : String)
deriving DecidableEq, Repr

/-- The HTTP status of a response: 400 for validation errors, 500 for
caught data-layer errors, 200 otherwise. -/
def Resp.status : Resp → Nat
  | .clientError _ => 400
  | .serverError _ => 500
  | _ => 200

/-- Whether the envelope carries `success: true`. -/
def Resp.success : Resp → Bool
  | .clientError _ => false
  | .serverError _ => false
  | _ => true

/-- What one handler invocation produced: the response, the database
state afterwards, and the data-access calls it made. -/
structure HandlerResult where
  resp : Resp
  store : Store
  calls : List DbCall
deriving DecidableEq, Repr

/-- The body of `POST /api/prisma/user/create` after
`const {email, name} = await request.json()`. -/
structure CreateBody where
  email : JsValue
  name : JsValue
deriving DecidableEq, Repr

/-- `POST /api/prisma/user/create` (src/app/api/prisma/user/create/route.ts):
`if (!email)` return 400 `Email is required`; otherwise
`prisma.user.create({data: {email, name: name || null}})`, answering
`{success, message, user}` on success and `{error}` at 500 on any
thrown error. -/
def POST_create (s : Store) (now : Nat) (b : CreateBody) : HandlerResult :=
  if !truthy b.email then
    ⟨.clientError "Email is required", s, []⟩
  else
    match prismaUserCreate s now b.email (jsOrNull b.name) with
    | .ok (u, s') => ⟨.userOk "User created successfully" u, s', [.create]⟩
    | .error m => ⟨.serverError m, s, [.create]⟩

/-- The body of `POST /api/prisma/user/create-many`: the `users` field,
`none` when it is missing or not an array. -/
structure CreateManyBody where
  users : Option (List (JsValue × JsValue))
deriving DecidableEq, Repr

/-- `POST /api/prisma/user/create-many`:
`if (!Array.isArray(users) || users.length === 0)` return 400;
otherwise `prisma.user.createMany` over
`users.map(u => ({email: u.email, name: u.name || null}))` with
`skipDuplicates: true`, answering `{success, message, count}`. -/
def POST_createMany (s : Store) (now : Nat) (b : CreateManyBody) : HandlerResult :=
  match b.users with
  | none => ⟨.clientError "Users array is required and must not be empty", s, []⟩
  | some us =>
      if us.length == 0 then
        ⟨.clientError "Users array is required and must not be empty", s, []⟩
      else
        match prismaCreateMany s now (us.map (fun u => (u.1, jsOrNull u.2))) with
        | .ok (cnt, s') =>
            ⟨.countOk "Users created successfully" cnt, s', [.createMany]⟩
        | .error m => ⟨.serverError m, s, [.createMany]⟩

/-- The body of `DELETE /api/prisma/user/delete` after
`const {id} = await request.json()`. -/
structure DeleteBody where
  id : JsValue
deriving DecidableEq, Repr

/-- `DELETE /api/prisma/user/delete`: `if (!id)` return 400
`User ID is required`; otherwise `prisma.user.delete({where: {id}})`,
answering `{success, message, user}` on success and `{error}` at 500
on any thrown error (a no-match raise included). -/
def DELETE_delete (s : Store) (b : DeleteBody) : HandlerResult :=
  if !truthy b.id then
    ⟨.clientError "User ID is required", s, []⟩
  else
    match prismaUserDelete s b.id with
    | .ok (u, s') => ⟨.userOk "User deleted successfully" u, s', [.deleteOne]⟩
    | .error m => ⟨.serverError m, s, [.deleteOne]⟩

/-- `DELETE /api/prisma/user/delete-many`:
`prisma.user.deleteMany({where: {}})`, answering
`{success, message, count}`. -/
def DELETE_deleteMany (s : Store) : HandlerResult :=
  let p := prismaDeleteMany s
  ⟨.countOk "All users deleted successfully" p.1, p.2, [.deleteMany]⟩

/-- Modelled from the spec: the `GET /api/prisma/user/get-all` route
file is not among the sources, only its full implementation listing in
src/docs/PRISMA_API_DEMO.md — `prisma.user.findMany({orderBy:
{createdAt: 'desc'}})` answered as `{success: true, users}`. -/
def GET_getAll (s : Store) : HandlerResult :=
  ⟨.usersOk (prismaFindManyDesc s), s, [.findMany]⟩

/-- Each distinct email appears in at most one persisted row. -/
def emailsUnique (s : Store) : Prop :=
  (s.users.map (fun u => u.email)).Nodup

instance : DecidablePred emailsUnique := fun s =>
  inferInstanceAs (Decidable ((s.users.map (fun u : User => u.email)).Nodup))

/-- One handler invocation, as a transition on the database state. -/
inductive Step : Store → Store → Prop
  | create (s : Store) (now : Nat) (b : CreateBody) :
      Step s (POST_create s now b).store
  | createMany (s : Store) (now : Nat) (b : CreateManyBody) :
      Step s (POST_createMany s now b).store
  | deleteOne (s : Store) (b : DeleteBody) :
      Step s (DELETE_delete s b).store
  | deleteAll (s : Store) :
      Step s (DELETE_deleteMany s).store
  | getAll (s : Store) :
      Step s (GET_getAll s).store

/-- The database states reachable from a fresh database through the
five handlers. -/
inductive Reachable : Store → Prop
  | init : Reachable emptyStore
  | step {s s' : Store} : Reachable s → Step s s' → Reachable s'

/-- The endpoints the UI page can fetch. -/
inductive Endpoint where
  | createOne
  | createMany
  | deleteOne
  | deleteAll
  | getAll
deriving DecidableEq, Repr

/-- The fetches `handleCreateSingleUser` in src/app/page.tsx performs,
in order: the create endpoint, then `fetchAllUsers`. -/
def handleCreateSingleUser : List Endpoint := [.createOne, .getAll]

/-- The fetches `handleCreateMany` performs: the create-many endpoint,
then `fetchAllUsers`. -/
def handleCreateMany : List Endpoint := [.createMany, .getAll]

/-- The fetches `handleDeleteSingle` performs from a given local
`users` state: `if (users.length === 0)` it sets the output text and
returns without fetching at all; otherwise the delete endpoint, then
`fetchAllUsers`. -/
def handleDeleteSingle (users : List User) : List Endpoint :=
  if users.length == 0 then [] else [.deleteOne, .getAll]

/-- The fetches `handleDeleteMany` performs: the delete-many endpoint,
then `fetchAllUsers`. -/
def handleDeleteMany : List Endpoint := [.deleteAll, .getAll]

/-- The fetches `fetchAllUsers` performs: the get-all endpoint only. -/
def fetchAllUsers : List Endpoint := [.getAll]

/-! ### Basic lemmas about the store and the modelled ORM calls -/

theorem emailExists_iff (s : Store) (e : String) :
    emailExists s e = true ↔ ∃ u ∈ s.users, u.email = e := by
  simp [emailExists]

theorem emailExists_false_iff (s : Store) (e : String) :
    emailExists s e = false ↔ ∀ u ∈ s.users, u.email ≠ e := by
  simp [emailExists]

theorem jsOrNull_ne_some_empty (v : JsValue) :
    asOptionalString (jsOrNull v) ≠ some (some "") := by
  rcases v with _ | _ | b | n | s
  · simp [jsOrNull, truthy, asOptionalString]
  · simp [jsOrNull, truthy, asOptionalString]
  · cases b <;> simp [jsOrNull, truthy, asOptionalString]
  · by_cases hn : n = 0 <;> simp [jsOrNull, truthy, asOptionalString, hn]
  · by_cases hs : s = "" <;> simp [jsOrNull, truthy, asOptionalString, hs]

theorem truthy_of_falsy_id (v : JsValue)
    (h : v = .num 0 ∨ v = .null ∨ v = .str "") : truthy v = false := by
  rcases h with h | h | h <;> simp [h, truthy]

theorem insertSkip_length (now : Nat) (rows : List (String × Option String)) :
    ∀ s : Store, ((insertSkip s now rows).2).users.length
      = s.users.length + (insertSkip s now rows).1 := by
  induction rows with
  | nil => intro s; simp [insertSkip]
  | cons r rest ih =>
      intro s
      rcases r with ⟨e, nm⟩
      by_cases h : emailExists s e = true
      · simp [insertSkip, h, ih s]
      · simp only [Bool.not_eq_true] at h
        simp [insertSkip, h,
          ih ⟨s.users ++ [⟨s.nextId, e, nm, now, now⟩], s.nextId + 1⟩]
        omega

theorem insertSkip_mem (now : Nat) (rows : List (String × Option String)) :
    ∀ s : Store, ∀ u ∈ s.users, u ∈ (insertSkip s now rows).2.users := by
  induction rows with
  | nil => intro s u hu; simpa [insertSkip] using hu
  | cons r rest ih =>
      intro s u hu
      rcases r with ⟨e, nm⟩
      by_cases h : emailExists s e = true
      · simpa [insertSkip, h] using ih s u hu
      · simp only [Bool.not_eq_true] at h
        simp only [insertSkip, h, Bool.false_eq_true, if_false]
        exact ih ⟨s.users ++ [⟨s.nextId, e, nm, now, now⟩], s.nextId + 1⟩ u
          (by simp [hu])

theorem insertSkip_email_iff (now : Nat) (rows : List (String × Option String)) :
    ∀ s : Store, ∀ e : String,
      (∃ u ∈ (insertSkip s now rows).2.users, u.email = e) ↔
        (∃ u ∈ s.users, u.email = e) ∨ ∃ r ∈ rows, r.1 = e := by
  induction rows with
  | nil => intro s e; simp [insertSkip]
  | cons r rest ih =>
      intro s e
      rcases r with ⟨e₀, nm⟩
      by_cases h : emailExists s e₀ = true
      · have hex : ∃ u ∈ s.users, u.email = e₀ := (emailExists_iff s e₀).mp h
        rw [show (insertSkip s now ((e₀, nm) :: rest)).2
            = (insertSkip s now rest).2 from by simp [insertSkip, h]]
        rw [ih s e]
        constructor
        · rintro (hs | ⟨r', hr', he'⟩)
          · exact Or.inl hs
          · exact Or.inr ⟨r', List.mem_cons_of_mem _ hr', he'⟩
        · rintro (hs | ⟨r', hr', he'⟩)
          · exact Or.inl hs
          · rcases List.mem_cons.mp hr' with hr'' | hr''
            · subst hr''
              rcases hex with ⟨u, hu, hue⟩
              exact Or.inl ⟨u, hu, hue.trans he'⟩
            · exact Or.inr ⟨r', hr'', he'⟩
      · simp only [Bool.not_eq_true] at h
        rw [show (insertSkip s now ((e₀, nm) :: rest)).2
            = (insertSkip ⟨s.users ++ [⟨s.nextId, e₀, nm, now, now⟩],
                s.nextId + 1⟩ now rest).2 from by simp [insertSkip, h]]
        rw [ih ⟨s.users ++ [(⟨s.nextId, e₀, nm, now, now⟩ : User)], s.nextId + 1⟩ e]
        constructor
        · rintro (⟨u, hu, he'⟩ | ⟨r', hr', he'⟩)
          · rcases List.mem_append.mp hu with hu' | hu'
            · exact Or.inl ⟨u, hu', he'⟩
            · have hu'' : u = ⟨s.nextId, e₀, nm, now, now⟩ := by simpa using hu'
              subst hu''
              exact Or.inr ⟨(e₀, nm), List.mem_cons_self _ _, he'⟩
          · exact Or.inr ⟨r', List.mem_cons_of_mem _ hr', he'⟩
        · rintro (⟨u, hu, he'⟩ | ⟨r', hr', he'⟩)
          · exact Or.inl ⟨u, List.mem_append.mpr (Or.inl hu), he'⟩
          · rcases List.mem_cons.mp hr' with hr'' | hr''
            · subst hr''
              exact Or.inl ⟨⟨s.nextId, e₀, nm, now, now⟩,
                List.mem_append.mpr (Or.inr (List.mem_singleton.mpr rfl)), he'⟩
            · exact Or.inr ⟨r', hr'', he'⟩

theorem emailsUnique_insert (s : Store) (u : User)
    (hs : emailsUnique s) (hnew : emailExists s u.email = false) :
    emailsUnique ⟨s.users ++ [u], s.nextId + 1⟩ := by
  rw [emailExists_false_iff] at hnew
  simp only [emailsUnique, List.map_append, List.map_cons, List.map_nil,
    List.nodup_append] at hs ⊢
  refine ⟨hs, List.nodup_singleton _, ?_⟩
  intro x hx hx'
  simp only [List.mem_map] at hx
  rcases hx with ⟨v, hv, hvx⟩
  simp only [List.mem_singleton] at hx'
  exact hnew v hv (hvx ▸ hx' ▸ rfl)

theorem insertSkip_unique (now : Nat) (rows : List (String × Option String)) :
    ∀ s : Store, emailsUnique s → emailsUnique (insertSkip s now rows).2 := by
  induction rows with
  | nil => intro s hs; simpa [insertSkip] using hs
  | cons r rest ih =>
      intro s hs
      rcases r with ⟨e, nm⟩
      by_cases h : emailExists s e = true
      · simpa [insertSkip, h] using ih s hs
      · simp only [Bool.not_eq_true] at h
        simp only [insertSkip, h, Bool.false_eq_true, if_false]
        exact ih _ (emailsUnique_insert s ⟨s.nextId, e, nm, now, now⟩ hs h)

theorem insertSkip_names (now : Nat) (rows : List (String × Option String)) :
    ∀ s : Store, (∀ u ∈ s.users, u.name ≠ some "") →
      (∀ r ∈ rows, r.2 ≠ some "") →
      ∀ u ∈ (insertSkip s now rows).2.users, u.name ≠ some "" := by
  induction rows with
  | nil => intro s hs _ u hu; exact hs u (by simpa [insertSkip] using hu)
  | cons r rest ih =>
      intro s hs hr u hu
      rcases r with ⟨e, nm⟩
      by_cases h : emailExists s e = true
      · exact ih s hs (fun r' hr' => hr r' (List.mem_cons_of_mem _ hr'))
          u (by simpa [insertSkip, h] using hu)
      · simp only [Bool.not_eq_true] at h
        simp only [insertSkip, h, Bool.false_eq_true, if_false] at hu
        refine ih ⟨s.users ++ [⟨s.nextId, e, nm, now, now⟩], s.nextId + 1⟩
          ?_ (fun r' hr' => hr r' (List.mem_cons_of_mem _ hr')) u hu
        intro v hv
        rcases List.mem_append.mp hv with hv | hv
        · exact hs v hv
        · simp only [List.mem_singleton] at hv
          subst hv
          exact hr (e, nm) (List.mem_cons_self _ _)

theorem decodeRow_ok (ev nv : JsValue) (e : String) (he : ev = .str e)
    (hn : truthy nv = true → ∃ nm, nv = .str nm) :
    ∃ nm, decodeRow (ev, jsOrNull nv) = some (e, nm) ∧ nm ≠ some "" := by
  subst he
  by_cases ht : truthy nv = true
  · rcases hn ht with ⟨nm, rfl⟩
    have hne : nm ≠ "" := by simpa [truthy] using ht
    exact ⟨some nm,
      by simp [decodeRow, jsOrNull, ht, asRequiredString, asOptionalString],
      by simp [hne]⟩
  · simp only [Bool.not_eq_true] at ht
    exact ⟨none,
      by simp [decodeRow, jsOrNull, ht, asRequiredString, asOptionalString],
      by simp⟩

theorem createMany_decode (es : List (JsValue × JsValue))
    (hwt : ∀ r ∈ es, (∃ e, r.1 = JsValue.str e) ∧
      (truthy r.2 = true → ∃ nm, r.2 = JsValue.str nm)) :
    ∃ rows, decodeRows (es.map fun u => (u.1, jsOrNull u.2)) = some rows ∧
      (∀ e : String, (∃ row ∈ rows, row.1 = e) ↔ ∃ r ∈ es, r.1 = JsValue.str e) ∧
      (∀ row ∈ rows, row.2 ≠ some "") := by
  induction es with
  | nil => exact ⟨[], by simp [decodeRows], by simp, by simp⟩
  | cons r es ih =>
      obtain ⟨⟨e, he⟩, hn⟩ := hwt r (List.mem_cons_self _ _)
      obtain ⟨rows, hmap, hiff, hnames⟩ :=
        ih (fun r' hr' => hwt r' (List.mem_cons_of_mem _ hr'))
      obtain ⟨nm, hdec, hnm⟩ := decodeRow_ok r.1 r.2 e he hn
      refine ⟨(e, nm) :: rows, ?_, ?_, ?_⟩
      · simp [decodeRows, hdec, hmap]
      · intro e'
        constructor
        · rintro ⟨row, hrow, hrow1⟩
          rcases List.mem_cons.mp hrow with h1 | h1
          · subst h1
            exact ⟨r, List.mem_cons_self _ _,
              by rw [he]; exact congrArg JsValue.str hrow1⟩
          · rcases (hiff e').mp ⟨row, h1, hrow1⟩ with ⟨r', hr', hr1⟩
            exact ⟨r', List.mem_cons_of_mem _ hr', hr1⟩
        · rintro ⟨r', hr', hr1⟩
          rcases List.mem_cons.mp hr' with h1 | h1
          · subst h1
            have he' : e = e' := by
              rw [he] at hr1
              exact JsValue.str.inj hr1
            exact ⟨(e, nm), List.mem_cons_self _ _, he'⟩
          · rcases (hiff e').mpr ⟨r', h1, hr1⟩ with ⟨row, hrow, hrow1⟩
            exact ⟨row, List.mem_cons_of_mem _ hrow, hrow1⟩
      · intro row hrow
        rcases List.mem_cons.mp hrow with h1 | h1
        · subst h1
          exact hnm
        · exact hnames row h1

theorem asOptionalString_jsOrNull_ok (nv : JsValue)
    (hn : truthy nv = true → ∃ nm, nv = .str nm) :
    ∃ nm, asOptionalString (jsOrNull nv) = some nm ∧ nm ≠ some "" := by
  by_cases ht : truthy nv = true
  · rcases hn ht with ⟨nm, rfl⟩
    have hne : nm ≠ "" := by simpa [truthy] using ht
    exact ⟨some nm, by simp [jsOrNull, truthy, hne, asOptionalString],
      by simp [hne]⟩
  · simp only [Bool.not_eq_true] at ht
    exact ⟨none, by simp [jsOrNull, ht, asOptionalString], by simp⟩

theorem POST_create_cases (s : Store) (now : Nat) (b : CreateBody) :
    (POST_create s now b).store = s ∨
    ∃ e nm, asRequiredString b.email = some e ∧
      asOptionalString (jsOrNull b.name) = some nm ∧
      emailExists s e = false ∧
      (POST_create s now b).store
        = ⟨s.users ++ [⟨s.nextId, e, nm, now, now⟩], s.nextId + 1⟩ ∧
      (POST_create s now b).resp
        = .userOk "User created successfully" ⟨s.nextId, e, nm, now, now⟩ := by
  by_cases ht : truthy b.email = true
  · rcases hre : asRequiredString b.email with _ | e
    · left; simp [POST_create, ht, prismaUserCreate, hre]
    · rcases hrn : asOptionalString (jsOrNull b.name) with _ | nm
      · left; simp [POST_create, ht, prismaUserCreate, hre, hrn]
      · by_cases hex : emailExists s e = true
        · left; simp [POST_create, ht, prismaUserCreate, hre, hrn, hex]
        · simp only [Bool.not_eq_true] at hex
          right
          exact ⟨e, nm, rfl, rfl, hex,
            by simp [POST_create, ht, prismaUserCreate, hre, hrn, hex],
            by simp [POST_create, ht, prismaUserCreate, hre, hrn, hex]⟩
  · simp only [Bool.not_eq_true] at ht
    left; simp [POST_create, ht]

theorem POST_createMany_cases (s : Store) (now : Nat) (b : CreateManyBody) :
    (POST_createMany s now b).store = s ∨
    ∃ us rows, b.users = some us ∧
      decodeRows (us.map fun u => (u.1, jsOrNull u.2)) = some rows ∧
      (POST_createMany s now b).store = (insertSkip s now rows).2 := by
  rcases b with ⟨_ | us⟩
  · left; simp [POST_createMany]
  · by_cases hl : (us.length == 0) = true
    · left; simp [POST_createMany, hl]
    · simp only [Bool.not_eq_true] at hl
      rcases hd : decodeRows (us.map fun u => (u.1, jsOrNull u.2)) with _ | rows
      · left; simp [POST_createMany, hl, prismaCreateMany, hd]
      · right
        exact ⟨us, rows, rfl, hd,
          by simp [POST_createMany, hl, prismaCreateMany, hd]⟩

theorem DELETE_delete_cases (s : Store) (b : DeleteBody) :
    (DELETE_delete s b).store = s ∨
    ∃ n, (DELETE_delete s b).store
      = ⟨s.users.eraseP (fun v => (v.id : Int) == n), s.nextId⟩ := by
  by_cases ht : truthy b.id = true
  · rcases hi : asInt b.id with _ | n
    · left; simp [DELETE_delete, ht, prismaUserDelete, hi]
    · rcases hf : s.users.find? (fun u => (u.id : Int) == n) with _ | u
      · left; simp [DELETE_delete, ht, prismaUserDelete, hi, hf]
      · right
        exact ⟨n, by simp [DELETE_delete, ht, prismaUserDelete, hi, hf]⟩
  · simp only [Bool.not_eq_true] at ht
    left; simp [DELETE_delete, ht]

theorem decodeRow_snd_ne_empty (ev nv : JsValue) (d : String × Option String)
    (h : decodeRow (ev, jsOrNull nv) = some d) : d.2 ≠ some "" := by
  unfold decodeRow at h
  rcases hre : asRequiredString ev with _ | e <;> rw [hre] at h
  · simp at h
  · rcases hrn : asOptionalString (jsOrNull nv) with _ | nm <;> rw [hrn] at h
    · simp at h
    · have hd : (e, nm) = d := by simpa using h
      have hnm := jsOrNull_ne_some_empty nv
      rw [hrn] at hnm
      intro hc
      apply hnm
      rw [← hd] at hc
      exact congrArg some hc

theorem decodeRows_names (us : List (JsValue × JsValue)) :
    ∀ rows, decodeRows (us.map fun u => (u.1, jsOrNull u.2)) = some rows →
      ∀ row ∈ rows, row.2 ≠ some "" := by
  induction us with
  | nil =>
      intro rows h row hrow
      simp only [List.map_nil, decodeRows, Option.some.injEq] at h
      subst h
      simp at hrow
  | cons u us ih =>
      intro rows h row hrow
      simp only [List.map_cons, decodeRows] at h
      rcases hd : decodeRow (u.1, jsOrNull u.2) with _ | d <;> rw [hd] at h
      · simp at h
      · rcases hds : decodeRows (us.map fun v => (v.1, jsOrNull v.2)) with _ | ds <;>
          rw [hds] at h
        · simp at h
        · have hr : d :: ds = rows := by simpa using h
          subst hr
          rcases List.mem_cons.mp hrow with h1 | h1
          · subst h1
            exact decodeRow_snd_ne_empty u.1 u.2 row hd
          · exact ih ds hds row h1

theorem step_emailsUnique {s s' : Store} (hst : Step s s')
    (h : emailsUnique s) : emailsUnique s' := by
  cases hst with
  | create now b =>
      rcases POST_create_cases s now b with hc | ⟨e, nm, _, _, hex, hc, _⟩
      · rwa [hc]
      · rw [hc]
        exact emailsUnique_insert s ⟨s.nextId, e, nm, now, now⟩ h hex
  | createMany now b =>
      rcases POST_createMany_cases s now b with hc | ⟨us, rows, _, _, hc⟩
      · rwa [hc]
      · rw [hc]
        exact insertSkip_unique now rows s h
  | deleteOne b =>
      rcases DELETE_delete_cases s b with hc | ⟨n, hc⟩
      · rwa [hc]
      · rw [hc]
        exact List.Nodup.sublist
          (List.Sublist.map _ (List.eraseP_sublist _)) h
  | deleteAll =>
      simp [DELETE_deleteMany, prismaDeleteMany, emailsUnique]
  | getAll =>
      simpa [GET_getAll] using h

theorem reachable_emailsUnique {t : Store} (h : Reachable t) :
    emailsUnique t := by
  induction h with
  | init => simp [emailsUnique, emptyStore]
  | step _ hst ih => exact step_emailsUnique hst ih

/-! ### Claim theorem: email uniqueness invariant (C2) -/

/-- C2: every database state reachable through the handlers has at
most one record per email; and create-one called twice with the same
email succeeds the first time — inserting one record — and fails the
second time with the uniqueness-constraint error leaving the store
untouched, so the record count grows by exactly 1, not 2. -/
theorem C2_email_uniqueness (s t : Store) (hreach : Reachable t)
    (now now2 : Nat) (e : String) (he : e ≠ "") (nv nv2 : JsValue)
    (hnv : truthy nv = true → ∃ nm, nv = JsValue.str nm)
    (hnv2 : truthy nv2 = true → ∃ nm, nv2 = JsValue.str nm)
    (hnotin : emailExists s e = false) :
    emailsUnique t ∧
    ∃ nm,
      POST_create s now ⟨.str e, nv⟩
        = ⟨.userOk "User created successfully" ⟨s.nextId, e, nm, now, now⟩,
           ⟨s.users ++ [⟨s.nextId, e, nm, now, now⟩], s.nextId + 1⟩,
           [.create]⟩ ∧
      (POST_create s now ⟨.str e, nv⟩).resp.success = true ∧
      (POST_create (POST_create s now ⟨.str e, nv⟩).store now2
          ⟨.str e, nv2⟩).resp
        = .serverError "Unique constraint failed on the fields: (email)" ∧
      (POST_create (POST_create s now ⟨.str e, nv⟩).store now2
          ⟨.str e, nv2⟩).resp.success = false ∧
      (POST_create (POST_create s now ⟨.str e, nv⟩).store now2
          ⟨.str e, nv2⟩).store.users.length = s.users.length + 1 := by
  have hts : truthy (JsValue.str e) = true := by simpa [truthy] using he
  obtain ⟨nm, hnm, _⟩ := asOptionalString_jsOrNull_ok nv hnv
  obtain ⟨nm2, hnm2, _⟩ := asOptionalString_jsOrNull_ok nv2 hnv2
  have h1 : POST_create s now ⟨.str e, nv⟩
      = ⟨.userOk "User created successfully" ⟨s.nextId, e, nm, now, now⟩,
         ⟨s.users ++ [⟨s.nextId, e, nm, now, now⟩], s.nextId + 1⟩,
         [.create]⟩ := by
    simp [POST_create, hts, prismaUserCreate, asRequiredString, hnm, hnotin]
  have hex : emailExists
      (⟨s.users ++ [(⟨s.nextId, e, nm, now, now⟩ : User)], s.nextId + 1⟩ : Store)
      e = true := by
    rw [emailExists_iff]
    exact ⟨⟨s.nextId, e, nm, now, now⟩, by simp, rfl⟩
  refine ⟨reachable_emailsUnique hreach, nm, h1, by simp [h1, Resp.success],
    ?_, ?_, ?_⟩
  · rw [h1]
    simp [POST_create, hts, prismaUserCreate, asRequiredString, hnm2, hex]
  · rw [h1]
    simp [POST_create, hts, prismaUserCreate, asRequiredString, hnm2, hex,
      Resp.success]
  · rw [h1]
    simp [POST_create, hts, prismaUserCreate, asRequiredString, hnm2, hex]

theorem C2_witness :
    Reachable emptyStore ∧ ("a@x.com" : String) ≠ "" ∧
    (truthy JsValue.undefined = true → ∃ nm, JsValue.undefined = JsValue.str nm) ∧
    emailExists emptyStore "a@x.com" = false ∧
    (emailsUnique emptyStore ∧
      ∃ nm,
        POST_create emptyStore 0 ⟨.str "a@x.com", JsValue.undefined⟩
          = ⟨.userOk "User created successfully"
              ⟨emptyStore.nextId, "a@x.com", nm, 0, 0⟩,
             ⟨emptyStore.users ++ [⟨emptyStore.nextId, "a@x.com", nm, 0, 0⟩],
              emptyStore.nextId + 1⟩, [.create]⟩ ∧
        (POST_create emptyStore 0 ⟨.str "a@x.com", JsValue.undefined⟩).resp.success
          = true ∧
        (POST_create
            (POST_create emptyStore 0 ⟨.str "a@x.com", JsValue.undefined⟩).store 0
            ⟨.str "a@x.com", JsValue.undefined⟩).resp
          = .serverError "Unique constraint failed on the fields: (email)" ∧
        (POST_create
            (POST_create emptyStore 0 ⟨.str "a@x.com", JsValue.undefined⟩).store 0
            ⟨.str "a@x.com", JsValue.undefined⟩).resp.success = false ∧
        (POST_create
            (POST_create emptyStore 0 ⟨.str "a@x.com", JsValue.undefined⟩).store 0
            ⟨.str "a@x.com", JsValue.undefined⟩).store.users.length
          = emptyStore.users.length + 1) :=
  ⟨Reachable.init, by simp, fun ht => by simp [truthy] at ht,
    by simp [emailExists, emptyStore],
    C2_email_uniqueness emptyStore emptyStore Reachable.init 0 0 "a@x.com"
      (by simp) JsValue.undefined JsValue.undefined
      (fun ht => by simp [truthy] at ht) (fun ht => by simp [truthy] at ht)
      (by simp [emailExists, emptyStore])⟩

/-! ### Claim theorem: create-many duplicate-skip semantics (C1) -/

/-- C1: a create-many request with a non-empty array of well-typed
`{email, name?}` entries performs one bulk insert that never aborts:
the response is success with `count` equal to the number of records
actually inserted, every pre-existing record survives, an email ends
up present exactly when it was present before or occurs in the batch,
and no email is ever duplicated — entries colliding with the store or
with an earlier entry of the same batch are silently skipped. -/
theorem C1_createMany_skips_duplicates (s : Store) (now : Nat)
    (es : List (JsValue × JsValue)) (hne : es ≠ [])
    (hwt : ∀ r ∈ es, (∃ e, r.1 = JsValue.str e) ∧
      (truthy r.2 = true → ∃ nm, r.2 = JsValue.str nm)) :
    ∃ cnt s',
      POST_createMany s now ⟨some es⟩
        = ⟨.countOk "Users created successfully" cnt, s', [.createMany]⟩ ∧
      s'.users.length = s.users.length + cnt ∧
      (∀ u ∈ s.users, u ∈ s'.users) ∧
      (∀ e : String, (∃ u ∈ s'.users, u.email = e) ↔
        (∃ u ∈ s.users, u.email = e) ∨ ∃ r ∈ es, r.1 = JsValue.str e) ∧
      (emailsUnique s → emailsUnique s') := by
  obtain ⟨rows, hmap, hiff, hnames⟩ := createMany_decode es hwt
  have h0 : es.length ≠ 0 := fun hl => hne (List.length_eq_zero.mp hl)
  have hlen : (es.length == 0) = false := by simpa using h0
  refine ⟨(insertSkip s now rows).1, (insertSkip s now rows).2, ?_, ?_, ?_, ?_, ?_⟩
  · simp [POST_createMany, hlen, prismaCreateMany, hmap]
  · exact insertSkip_length now rows s
  · exact insertSkip_mem now rows s
  · intro e
    rw [insertSkip_email_iff now rows s e]
    exact or_congr Iff.rfl (hiff e)
  · exact insertSkip_unique now rows s

theorem C1_witness :
    ([((JsValue.str "a@x.com"), JsValue.undefined),
      ((JsValue.str "a@x.com"), JsValue.undefined),
      ((JsValue.str "b@x.com"), JsValue.undefined)]
        ≠ ([] : List (JsValue × JsValue))) ∧
    (∀ r ∈ [((JsValue.str "a@x.com"), JsValue.undefined),
        ((JsValue.str "a@x.com"), JsValue.undefined),
        ((JsValue.str "b@x.com"), JsValue.undefined)],
      (∃ e, r.1 = JsValue.str e) ∧
        (truthy r.2 = true → ∃ nm, r.2 = JsValue.str nm)) ∧
    (∃ cnt s',
      POST_createMany emptyStore 0
          ⟨some [((JsValue.str "a@x.com"), JsValue.undefined),
            ((JsValue.str "a@x.com"), JsValue.undefined),
            ((JsValue.str "b@x.com"), JsValue.undefined)]⟩
        = ⟨.countOk "Users created successfully" cnt, s', [.createMany]⟩ ∧
      s'.users.length = emptyStore.users.length + cnt ∧
      (∀ u ∈ emptyStore.users, u ∈ s'.users) ∧
      (∀ e : String, (∃ u ∈ s'.users, u.email = e) ↔
        (∃ u ∈ emptyStore.users, u.email = e) ∨
          ∃ r ∈ [((JsValue.str "a@x.com"), JsValue.undefined),
            ((JsValue.str "a@x.com"), JsValue.undefined),
            ((JsValue.str "b@x.com"), JsValue.undefined)], r.1 = JsValue.str e) ∧
      (emailsUnique emptyStore → emailsUnique s')) ∧
    (POST_createMany emptyStore 0
        ⟨some [((JsValue.str "a@x.com"), JsValue.undefined),
          ((JsValue.str "a@x.com"), JsValue.undefined),
          ((JsValue.str "b@x.com"), JsValue.undefined)]⟩).resp
      = .countOk "Users created successfully" 2 ∧
    (POST_createMany emptyStore 0
        ⟨some [((JsValue.str "a@x.com"), JsValue.undefined),
          ((JsValue.str "a@x.com"), JsValue.undefined),
          ((JsValue.str "b@x.com"), JsValue.undefined)]⟩).store.users.length = 2 := by
  have hwt : ∀ r ∈ [((JsValue.str "a@x.com"), JsValue.undefined),
      ((JsValue.str "a@x.com"), JsValue.undefined),
      ((JsValue.str "b@x.com"), JsValue.undefined)],
      (∃ e, r.1 = JsValue.str e) ∧
        (truthy r.2 = true → ∃ nm, r.2 = JsValue.str nm) := by
    intro r hr
    simp only [List.mem_cons, List.not_mem_nil, or_false] at hr
    rcases hr with h | h | h <;> subst h <;>
      exact ⟨⟨_, rfl⟩, fun ht => by simp [truthy] at ht⟩
  refine ⟨by simp, hwt,
    C1_createMany_skips_duplicates emptyStore 0 _ (by simp) hwt, ?_, ?_⟩
  · rfl
  · rfl

/-! ### Claim theorems: validation short-circuits (C3, C9) -/

/-- C3: a create-one request with a missing or empty `email` gets the
400 validation response `Email is required`, the handler makes no
data-access call, and the store is unchanged. -/
theorem C3_create_missing_email (s : Store) (now : Nat) (b : CreateBody)
    (h : b.email = .undefined ∨ b.email = .str "") :
    (POST_create s now b).resp = .clientError "Email is required" ∧
    (POST_create s now b).resp.status = 400 ∧
    (POST_create s now b).calls = [] ∧
    (POST_create s now b).store = s := by
  have ht : truthy b.email = false := by
    rcases h with h | h <;> simp [h, truthy]
  simp [POST_create, ht, Resp.status]

theorem C3_witness :
    ((⟨.undefined, .undefined⟩ : CreateBody).email = .undefined ∨
      (⟨.undefined, .undefined⟩ : CreateBody).email = .str "") ∧
    ((POST_create emptyStore 0 ⟨.undefined, .undefined⟩).resp
        = .clientError "Email is required" ∧
      (POST_create emptyStore 0 ⟨.undefined, .undefined⟩).resp.status = 400 ∧
      (POST_create emptyStore 0 ⟨.undefined, .undefined⟩).calls = [] ∧
      (POST_create emptyStore 0 ⟨.undefined, .undefined⟩).store = emptyStore) :=
  ⟨Or.inl rfl, C3_create_missing_email emptyStore 0 ⟨.undefined, .undefined⟩ (Or.inl rfl)⟩

/-- C9: a delete-one request whose `id` is present but falsy — `0`,
`null` or the empty string — gets the 400 validation response
`User ID is required` with no data-access call, exactly as if the id
were absent. -/
theorem C9_delete_falsy_id (s : Store) (b : DeleteBody)
    (h : b.id = .num 0 ∨ b.id = .null ∨ b.id = .str "") :
    (DELETE_delete s b).resp = .clientError "User ID is required" ∧
    (DELETE_delete s b).resp.status = 400 ∧
    (DELETE_delete s b).calls = [] ∧
    (DELETE_delete s b).store = s := by
  have ht : truthy b.id = false := truthy_of_falsy_id b.id h
  simp [DELETE_delete, ht, Resp.status]

theorem C9_witness :
    ((⟨.num 0⟩ : DeleteBody).id = .num 0 ∨ (⟨.num 0⟩ : DeleteBody).id = .null ∨
      (⟨.num 0⟩ : DeleteBody).id = .str "") ∧
    ((DELETE_delete emptyStore ⟨.num 0⟩).resp = .clientError "User ID is required" ∧
      (DELETE_delete emptyStore ⟨.num 0⟩).resp.status = 400 ∧
      (DELETE_delete emptyStore ⟨.num 0⟩).calls = [] ∧
      (DELETE_delete emptyStore ⟨.num 0⟩).store = emptyStore) :=
  ⟨Or.inl rfl, C9_delete_falsy_id emptyStore ⟨.num 0⟩ (Or.inl rfl)⟩

/-! ### Claim theorems: delete-all and delete-one failure (C6, C5) -/

/-- C6: delete-all on a store with N records removes all of them and
answers success with `count: N`; run again on the now-empty store it
answers success with `count: 0`, not an error. -/
theorem C6_deleteAll_count (s : Store) :
    (DELETE_deleteMany s).resp
      = .countOk "All users deleted successfully" s.users.length ∧
    (DELETE_deleteMany s).resp.success = true ∧
    (DELETE_deleteMany s).store.users = [] ∧
    (DELETE_deleteMany (DELETE_deleteMany s).store).resp
      = .countOk "All users deleted successfully" 0 ∧
    (DELETE_deleteMany (DELETE_deleteMany s).store).resp.success = true := by
  simp [DELETE_deleteMany, prismaDeleteMany, Resp.success]

/-- C5: delete-one with a present id that matches no record answers a
500 server error carrying the data layer's no-match message, and the
store — in particular its record count — is unchanged. -/
theorem C5_delete_no_match (s : Store) (b : DeleteBody) (n : Int)
    (hid : b.id = .num n) (hn : n ≠ 0)
    (hno : ∀ u ∈ s.users, (u.id : Int) ≠ n) :
    (DELETE_delete s b).resp = .serverError "No record was found for a delete." ∧
    (DELETE_delete s b).resp.status = 500 ∧
    (DELETE_delete s b).store = s ∧
    (DELETE_delete s b).store.users.length = s.users.length := by
  have hfind : s.users.find? (fun u => (u.id : Int) == n) = none := by
    simp only [List.find?_eq_none, beq_iff_eq]
    exact fun u hu => hno u hu
  simp [DELETE_delete, truthy, hid, hn, prismaUserDelete, asInt, hfind, Resp.status]

theorem C5_witness :
    ((⟨.num 7⟩ : DeleteBody).id = .num 7 ∧ (7 : Int) ≠ 0 ∧
      (∀ u ∈ emptyStore.users, (u.id : Int) ≠ 7)) ∧
    ((DELETE_delete emptyStore ⟨.num 7⟩).resp
        = .serverError "No record was found for a delete." ∧
      (DELETE_delete emptyStore ⟨.num 7⟩).resp.status = 500 ∧
      (DELETE_delete emptyStore ⟨.num 7⟩).store = emptyStore ∧
      (DELETE_delete emptyStore ⟨.num 7⟩).store.users.length
        = emptyStore.users.length) :=
  ⟨⟨rfl, by decide, by simp [emptyStore]⟩,
    C5_delete_no_match emptyStore ⟨.num 7⟩ 7 rfl (by decide)
      (by simp [emptyStore])⟩

/-! ### Claim theorem: create-one success contract (C4) -/

/-- C4: a create-one request with a non-empty email not yet in the
store inserts exactly one record; the success response carries the
full created record, whose email equals the input, whose name is the
input name when a non-empty string was given and null when the name
was falsy, whose id is fresh — unused by every existing record — and
whose `createdAt`/`updatedAt` are set; a subsequent list-all contains
exactly one record with that email. -/
theorem C4_create_one_valid (s : Store) (now : Nat) (e : String) (nv : JsValue)
    (he : e ≠ "") (hnotin : emailExists s e = false)
    (hfresh : ∀ v ∈ s.users, v.id < s.nextId)
    (hnv : truthy nv = true → ∃ nm, nv = JsValue.str nm) :
    ∃ u s',
      POST_create s now ⟨.str e, nv⟩
        = ⟨.userOk "User created successfully" u, s', [.create]⟩ ∧
      u.email = e ∧
      (∀ nm, nv = JsValue.str nm → nm ≠ "" → u.name = some nm) ∧
      (truthy nv = false → u.name = none) ∧
      u.createdAt = now ∧ u.updatedAt = now ∧
      u.id = s.nextId ∧
      (∀ v ∈ s.users, v.id ≠ u.id) ∧
      s'.users = s.users ++ [u] ∧
      s'.users.length = s.users.length + 1 ∧
      u ∈ prismaFindManyDesc s' ∧
      (prismaFindManyDesc s').countP (fun v => v.email == e) = 1 := by
  have hts : truthy (JsValue.str e) = true := by simpa [truthy] using he
  obtain ⟨nm, hnm, _⟩ := asOptionalString_jsOrNull_ok nv hnv
  refine ⟨⟨s.nextId, e, nm, now, now⟩,
    ⟨s.users ++ [⟨s.nextId, e, nm, now, now⟩], s.nextId + 1⟩,
    by simp [POST_create, hts, prismaUserCreate, asRequiredString, hnm, hnotin],
    rfl, ?_, ?_, rfl, rfl, rfl, ?_, rfl, by simp, ?_, ?_⟩
  · intro nm' hnv' hne'
    subst hnv'
    have ht' : truthy (JsValue.str nm') = true := by simpa [truthy] using hne'
    have : asOptionalString (jsOrNull (JsValue.str nm')) = some (some nm') := by
      simp [jsOrNull, ht', asOptionalString]
    rw [this] at hnm
    simpa using (Option.some.inj hnm).symm
  · intro ht'
    have : asOptionalString (jsOrNull nv) = some none := by
      simp [jsOrNull, ht', asOptionalString]
    rw [this] at hnm
    simpa using (Option.some.inj hnm).symm
  · intro v hv
    exact Nat.ne_of_lt (hfresh v hv)
  · have hperm := List.mergeSort_perm
      (s.users ++ [(⟨s.nextId, e, nm, now, now⟩ : User)])
      (fun a b : User => decide (b.createdAt ≤ a.createdAt))
    exact hperm.mem_iff.mpr (by simp)
  · have hperm := List.mergeSort_perm
      (s.users ++ [(⟨s.nextId, e, nm, now, now⟩ : User)])
      (fun a b : User => decide (b.createdAt ≤ a.createdAt))
    rw [show (prismaFindManyDesc
        ⟨s.users ++ [(⟨s.nextId, e, nm, now, now⟩ : User)], s.nextId + 1⟩)
      = (s.users ++ [(⟨s.nextId, e, nm, now, now⟩ : User)]).mergeSort
          (fun a b : User => decide (b.createdAt ≤ a.createdAt)) from rfl]
    rw [hperm.countP_eq, List.countP_append]
    have h0 : s.users.countP (fun v => v.email == e) = 0 := by
      rw [List.countP_eq_zero]
      intro v hv
      simpa using (emailExists_false_iff s e).mp hnotin v hv
    simp [h0]

theorem C4_witness :
    ("a@x.com" : String) ≠ "" ∧
    emailExists emptyStore "a@x.com" = false ∧
    (∀ v ∈ emptyStore.users, v.id < emptyStore.nextId) ∧
    (truthy (JsValue.str "Jo") = true → ∃ nm, JsValue.str "Jo" = JsValue.str nm) ∧
    (∃ u s',
      POST_create emptyStore 5 ⟨.str "a@x.com", .str "Jo"⟩
        = ⟨.userOk "User created successfully" u, s', [.create]⟩ ∧
      u.email = "a@x.com" ∧
      (∀ nm, JsValue.str "Jo" = JsValue.str nm → nm ≠ "" → u.name = some nm) ∧
      (truthy (JsValue.str "Jo") = false → u.name = none) ∧
      u.createdAt = 5 ∧ u.updatedAt = 5 ∧
      u.id = emptyStore.nextId ∧
      (∀ v ∈ emptyStore.users, v.id ≠ u.id) ∧
      s'.users = emptyStore.users ++ [u] ∧
      s'.users.length = emptyStore.users.length + 1 ∧
      u ∈ prismaFindManyDesc s' ∧
      (prismaFindManyDesc s').countP (fun v => v.email == "a@x.com") = 1) :=
  ⟨by simp, by simp [emailExists, emptyStore], by simp [emptyStore],
    fun _ => ⟨"Jo", rfl⟩,
    C4_create_one_valid emptyStore 5 "a@x.com" (.str "Jo") (by simp)
      (by simp [emailExists, emptyStore]) (by simp [emptyStore])
      (fun _ => ⟨"Jo", rfl⟩)⟩

/-! ### Claim theorem: falsy names are stored as null (C10) -/

/-- C10: through create-one and create-many a falsy `name` — empty
string, `null`, `undefined`, `0`, `false` — is persisted as null:
starting from a store with no empty-string name, no record after
either handler has an empty-string name, and when create-one's `name`
is falsy the record it reports back has a null name. -/
theorem C10_never_empty_name (s : Store) (now : Nat) (b : CreateBody)
    (b2 : CreateManyBody)
    (h : ∀ u ∈ s.users, u.name ≠ some "") :
    (∀ u ∈ (POST_create s now b).store.users, u.name ≠ some "") ∧
    (∀ u ∈ (POST_createMany s now b2).store.users, u.name ≠ some "") ∧
    (truthy b.name = false → ∀ m u,
      (POST_create s now b).resp = .userOk m u → u.name = none) := by
  refine ⟨?_, ?_, ?_⟩
  · rcases POST_create_cases s now b with hc | ⟨e, nm, _, hrn, _, hc, _⟩
    · rw [hc]; exact h
    · rw [hc]
      intro u hu
      rcases List.mem_append.mp hu with hu' | hu'
      · exact h u hu'
      · have hu'' : u = ⟨s.nextId, e, nm, now, now⟩ := by simpa using hu'
        subst hu''
        intro hc'
        apply jsOrNull_ne_some_empty b.name
        rw [hrn]
        exact congrArg some hc'
  · rcases POST_createMany_cases s now b2 with hc | ⟨us, rows, _, hd, hc⟩
    · rw [hc]; exact h
    · rw [hc]
      exact insertSkip_names now rows s h (decodeRows_names us rows hd)
  · intro ht m u hresp
    by_cases hte : truthy b.email = true
    · have hnull : jsOrNull b.name = .null := by simp [jsOrNull, ht]
      rcases hre : asRequiredString b.email with _ | e
      · simp [POST_create, hte, prismaUserCreate, hre] at hresp
      · by_cases hex : emailExists s e = true
        · simp [POST_create, hte, prismaUserCreate, hre, hnull,
            asOptionalString, hex] at hresp
        · simp only [Bool.not_eq_true] at hex
          simp [POST_create, hte, prismaUserCreate, hre, hnull,
            asOptionalString, hex, Resp.userOk.injEq] at hresp
          rw [← hresp.2]
    · simp only [Bool.not_eq_true] at hte
      simp [POST_create, hte] at hresp

theorem C10_witness :
    (∀ u ∈ emptyStore.users, u.name ≠ some "") ∧
    ((∀ u ∈ (POST_create emptyStore 0 ⟨.str "a@x.com", .str ""⟩).store.users,
        u.name ≠ some "") ∧
      (∀ u ∈ (POST_createMany emptyStore 0
          ⟨some [(.str "b@x.com", .str "")]⟩).store.users, u.name ≠ some "") ∧
      (truthy (JsValue.str "") = false → ∀ m u,
        (POST_create emptyStore 0 ⟨.str "a@x.com", .str ""⟩).resp
          = .userOk m u → u.name = none)) :=
  ⟨by simp [emptyStore],
    C10_never_empty_name emptyStore 0 ⟨.str "a@x.com", .str ""⟩
      ⟨some [(.str "b@x.com", .str "")]⟩ (by simp [emptyStore])⟩

/-! ### Claim theorem: list-all returns everything, newest first (C7) -/

/-- C7: list-all answers success with every record, ordered by
`createdAt` descending; on the empty store it answers
`{success: true, users: []}`, and for three records created at
times 1 < 2 < 3 it returns them in the order [t3, t2, t1]. -/
theorem C7_getAll_desc (s : Store) :
    (∃ l, (GET_getAll s).resp = .usersOk l ∧ l.Perm s.users ∧
      List.Sorted (fun a b : User => b.createdAt ≤ a.createdAt) l) ∧
    (GET_getAll s).store = s ∧
    (GET_getAll emptyStore).resp = .usersOk [] ∧
    (GET_getAll ⟨[⟨1, "t1@x.com", none, 1, 1⟩, ⟨2, "t2@x.com", none, 2, 2⟩,
        ⟨3, "t3@x.com", none, 3, 3⟩], 4⟩).resp
      = .usersOk [⟨3, "t3@x.com", none, 3, 3⟩, ⟨2, "t2@x.com", none, 2, 2⟩,
        ⟨1, "t1@x.com", none, 1, 1⟩] := by
  refine ⟨⟨prismaFindManyDesc s, rfl, List.mergeSort_perm s.users _, ?_⟩,
    rfl,
    by simp [GET_getAll, prismaFindManyDesc, emptyStore, List.mergeSort],
    by simp [GET_getAll, prismaFindManyDesc, List.mergeSort, List.merge]⟩
  have hs := @List.sorted_mergeSort User
    (fun a b : User => decide (b.createdAt ≤ a.createdAt))
    (fun a b c h1 h2 => by
      simp only [decide_eq_true_eq] at h1 h2 ⊢
      exact le_trans h2 h1)
    (fun a b => by
      simp only [Bool.or_eq_true, decide_eq_true_eq]
      exact Nat.le_total _ _)
    s.users
  exact hs.imp (fun hab => of_decide_eq_true hab)

/-! ### Claim C8: UI buttons fetch then refresh (corrected) -/

/-- C8 counterexample: with an empty local user list the
delete-single button performs no fetch at all — it early-returns with
the text `No users to delete` — contradicting the claim that every
button action fetches its handler and then refreshes the list from
every starting UI state. -/
theorem C8_counterexample :
    handleDeleteSingle [] = [] ∧
    handleDeleteSingle [] ≠ [Endpoint.deleteOne, Endpoint.getAll] := by
  decide

/-- C8 (amended): create-single, create-many and delete-all each
perform exactly their one fetch followed by a list refresh from every
starting UI state; delete-single does so from every non-empty local
user list, but from an empty list it performs no fetch at all. -/
theorem C8_fetch_then_refresh (us : List User) (h : us ≠ []) :
    handleCreateSingleUser = [Endpoint.createOne, Endpoint.getAll] ∧
    handleCreateMany = [Endpoint.createMany, Endpoint.getAll] ∧
    handleDeleteMany = [Endpoint.deleteAll, Endpoint.getAll] ∧
    handleDeleteSingle us = [Endpoint.deleteOne, Endpoint.getAll] ∧
    handleDeleteSingle [] = [] ∧
    fetchAllUsers = [Endpoint.getAll] := by
  have h0 : (us.length == 0) = false := by
    simpa using fun hl => h (List.length_eq_zero.mp hl)
  exact ⟨rfl, rfl, rfl, by simp [handleDeleteSingle, h0], rfl, rfl⟩

theorem C8_witness :
    ([(⟨1, "w@x.com", none, 0, 0⟩ : User)] ≠ []) ∧
    (handleCreateSingleUser = [Endpoint.createOne, Endpoint.getAll] ∧
      handleCreateMany = [Endpoint.createMany, Endpoint.getAll] ∧
      handleDeleteMany = [Endpoint.deleteAll, Endpoint.getAll] ∧
      handleDeleteSingle [(⟨1, "w@x.com", none, 0, 0⟩ : User)]
        = [Endpoint.deleteOne, Endpoint.getAll] ∧
      handleDeleteSingle [] = [] ∧
      fetchAllUsers = [Endpoint.getAll]) :=
  ⟨by simp, C8_fetch_then_refresh [⟨1, "w@x.com", none, 0, 0⟩] (by simp)⟩

end Skolaroid
